import Mathlib

/-!
Shallow embedding of the typed-AST traversal engine in
`language/move-compiler/src/inlining/visitor.rs`.

The Rust file defines a `Visitor` trait (callback hooks with default
no-op bodies), a `VisitorContinuation` signal, and a `Dispatcher` that
walks a typed `Function` in a fixed depth-first order, invoking hooks at
well-defined points.

Modeling choices:
* AST node payloads that the dispatcher never traverses (module names,
  field names, operators, literal values, locations, ability sets) are
  collapsed to `Nat`/`Bool`/`Option Nat` placeholders; the traversed
  structure (child expressions, types, lvalues, sequences, variables) is
  kept exactly as in the source.
* A visitor hook taking `&mut self` is modeled by explicit state passing
  (`σ → ... → σ`).  Hooks observe the node they are handed and may update
  the visitor state; rewriting of IR nodes by hooks is outside this model
  (the visitors considered leave node structure unchanged).  The engine's
  in-place `&mut` walk is rendered as a rebuild: every dispatcher
  function returns the reassembled node, so that "the engine itself
  mutates nothing" is a provable statement rather than a definitional
  triviality.
* Each dispatcher function also returns the list of hook invocations it
  performed, in order (`Event` below), which is the observable the
  specified trace properties talk about.
-/

/-- Type `VisitorContinuation` from visitor.rs (`Stop` / `Descend`). -/
inductive VisitorContinuation where
  | Stop
  | Descend
deriving DecidableEq, Repr

/-- Type `parser::ast::Var`.  The dispatcher only hands variables to hooks, so
the payload is a bare identifier. -/
abbrev Var := Nat

/-- Type `naming::ast::Type_`: reference, applied/compound type (ability-set
placeholder, head name, ordered type arguments), and the atomic leaves. -/
inductive Type_ where
  | Ref (m : Bool) (ty : Type_)
  | Apply (abilities : Option Nat) (name : Nat) (args : List Type_)
  | Unit
  | Param (p : Nat)
  | Var (v : Nat)
  | Anything
  | UnresolvedError

mutual

/-- Type `typing::ast::Exp`: an inferred type together with the unannotated
expression (the source also stores a location, which the dispatcher
ignores). -/
inductive Exp where
  | mk (ty : Type_) (exp : UnannotatedExp)

/-- Type `typing::ast::UnannotatedExp_`: the full variant set matched by
`Dispatcher::exp_unannotated`. -/
inductive UnannotatedExp where
  | ModuleCall (name : Nat) (type_arguments : List Type_)
      (parameter_types : List Type_) (arguments : Exp)
  | Use (v : Var)
  | Copy (from_user : Bool) (v : Var)
  | Move (from_user : Bool) (v : Var)
  | BorrowLocal (m : Bool) (v : Var)
  | VarCall (v : Var) (e : Exp)
  | Lambda (decls : List LValue) (body : Exp)
  | IfElse (c : Exp) (i : Exp) (e : Exp)
  | While (c : Exp) (b : Exp)
  | Block (seq : List SequenceItem)
  | Mutate (d : Exp) (src : Exp)
  | BinopExp (l : Exp) (op : Nat) (ty : Type_) (r : Exp)
  | Pack (m : Nat) (st : Nat) (tys : List Type_) (fields : List (Type_ × Exp))
  | ExpList (items : List ExpListItem)
  | Assign (lhs : List LValue) (tys : List (Option Type_)) (e : Exp)
  | Vector (n : Nat) (ty : Type_) (e : Exp)
  | Cast (e : Exp) (ty : Type_)
  | Annotate (e : Exp) (ty : Type_)
  | Loop (body : Exp)
  | Builtin (f : Nat) (e : Exp)
  | Return (e : Exp)
  | Abort (e : Exp)
  | Dereference (e : Exp)
  | UnaryExp (op : Nat) (e : Exp)
  | Borrow (m : Bool) (e : Exp) (f : Nat)
  | TempBorrow (m : Bool) (e : Exp)
  | Unit (trailing : Bool)
  | Value (v : Nat)
  | Constant (m : Nat) (c : Nat)
  | Break
  | Continue
  | Spec (anchor : Nat)
  | UnresolvedError

/-- Type `typing::ast::ExpListItem` (`Single` / `Splat`). -/
inductive ExpListItem where
  | Single (e : Exp) (ty : Type_)
  | Splat (e : Exp) (tys : List Type_)

/-- Type `typing::ast::SequenceItem_` (`Bind` / `Declare` / `Seq`). -/
inductive SequenceItem where
  | Bind (decls : List LValue) (tys : List (Option Type_)) (e : Exp)
  | Declare (decls : List LValue)
  | Seq (e : Exp)

/-- Type `typing::ast::LValue_`: simple variable (with ascribed type),
destructuring in two reference disciplines, and the ignore placeholder. -/
inductive LValue where
  | Var (v : Var) (ty : Type_)
  | Unpack (m : Nat) (st : Nat) (tys : List Type_)
      (fields : List (Type_ × LValue))
  | BorrowUnpack (mu : Bool) (m : Nat) (st : Nat) (tys : List Type_)
      (fields : List (Type_ × LValue))
  | Ignore

end

/-- Type `typing::ast::Sequence`: an ordered list of statements. -/
abbrev Sequence := List SequenceItem

/-- The inferred type stored on an expression node (`ex.ty` in the source). -/
def Exp.ty : Exp → Type_
  | .mk ty _ => ty

/-- The unannotated value of an expression node (`ex.exp.value`). -/
def Exp.exp : Exp → UnannotatedExp
  | .mk _ ue => ue

/-- Type `FunctionBody_` (`Native` / `Defined`). -/
inductive FunctionBody where
  | Native
  | Defined (seq : Sequence)

/-- Type `FunctionSignature`: the dispatcher only touches `parameters`. -/
structure FunctionSignature where
  parameters : List (Var × Type_)

/-- Type `typing::ast::Function`: signature plus body. -/
structure Function where
  signature : FunctionSignature
  body : FunctionBody

/-- One hook invocation performed by the dispatcher, recorded with the
argument the hook was handed.  Constructor names match the `Visitor`
trait methods. -/
inductive Event where
  | exp (e : Exp)
  | type_ (t : Type_)
  | enter_scope
  | var_decl (v : Var)
  | var_use (v : Var)
  | exit_scope
  | infer_abilities (t : Type_)

/-- The `Visitor` trait: state-passing hooks.  Each field default is the
trait's default method body (return `Descend` / do nothing). -/
structure Visitor (σ : Type) where
  exp : σ → Exp → σ × VisitorContinuation := fun s _ => (s, .Descend)
  type_ : σ → Type_ → σ × VisitorContinuation := fun s _ => (s, .Descend)
  enter_scope : σ → σ := fun s => s
  var_decl : σ → Var → σ := fun s _ => s
  var_use : σ → Var → σ := fun s _ => s
  exit_scope : σ → σ := fun s => s
  infer_abilities : σ → Type_ → σ := fun s _ => s

/-- A visitor that overrides nothing: every hook is the trait default. -/
def defaultVisitor : Visitor Unit := {}

variable {σ : Type}

mutual

/-- Function `Dispatcher::type_`: hook first; on `Stop` return without descending;
otherwise recurse into a reference's referent, or into an applied type's
arguments followed by one `infer_abilities` call; leaves end the walk. -/
def Dispatcher.type_ (V : Visitor σ) (s : σ) (ty : Type_) :
    σ × Type_ × List Event :=
  let r := V.type_ s ty
  if r.2 = VisitorContinuation.Stop then (r.1, ty, [Event.type_ ty])
  else
    match ty with
    | .Ref m t =>
      let r1 := Dispatcher.type_ V r.1 t
      (r1.1, .Ref m r1.2.1, Event.type_ ty :: r1.2.2)
    | .Apply abs n tys =>
      let r1 := Dispatcher.types V r.1 tys
      let ty1 := Type_.Apply abs n r1.2.1
      (V.infer_abilities r1.1 ty1, ty1,
        Event.type_ ty :: (r1.2.2 ++ [Event.infer_abilities ty1]))
    | .Unit => (r.1, ty, [Event.type_ ty])
    | .Param _ => (r.1, ty, [Event.type_ ty])
    | .Var _ => (r.1, ty, [Event.type_ ty])
    | .Anything => (r.1, ty, [Event.type_ ty])
    | .UnresolvedError => (r.1, ty, [Event.type_ ty])

/-- Function `Dispatcher::types`: visit each type of an iterator in order. -/
def Dispatcher.types (V : Visitor σ) (s : σ) (tys : List Type_) :
    σ × List Type_ × List Event :=
  match tys with
  | [] => (s, [], [])
  | t :: rest =>
    let r1 := Dispatcher.type_ V s t
    let r2 := Dispatcher.types V r1.1 rest
    (r2.1, r1.2.1 :: r2.2.1, r1.2.2 ++ r2.2.2)

end

/-- Model of `self.types(tys.iter_mut().filter_map(|t| t.as_mut()))`: the present
entries are visited in order, absent ones are skipped. -/
def Dispatcher.types_opt (V : Visitor σ) (s : σ) (tys : List (Option Type_)) :
    σ × List (Option Type_) × List Event :=
  match tys with
  | [] => (s, [], [])
  | none :: rest =>
    let r := Dispatcher.types_opt V s rest
    (r.1, none :: r.2.1, r.2.2)
  | some t :: rest =>
    let r1 := Dispatcher.type_ V s t
    let r2 := Dispatcher.types_opt V r1.1 rest
    (r2.1, some r1.2.1 :: r2.2.1, r1.2.2 ++ r2.2.2)

/-- The closing loop of `Dispatcher::sequence`
(`while scope_cnt > 0 { self.visitor.exit_scope(); scope_cnt -= 1 }`). -/
def Dispatcher.exit_scopes (V : Visitor σ) : σ → Nat → σ × List Event
  | s, 0 => (s, [])
  | s, n + 1 =>
    let r := Dispatcher.exit_scopes V (V.exit_scope s) n
    (r.1, Event.exit_scope :: r.2)

mutual

/-- Function `Dispatcher::exp`: visit the node's inferred type, then invoke the
`exp` hook on the node; on `Stop` return without descending, otherwise
dispatch on the unannotated variant. -/
def Dispatcher.exp (V : Visitor σ) (s : σ) (ex : Exp) : σ × Exp × List Event :=
  match ex with
  | .mk ty ue =>
    let r1 := Dispatcher.type_ V s ty
    let r2 := V.exp r1.1 (.mk r1.2.1 ue)
    if r2.2 = VisitorContinuation.Stop then
      (r2.1, .mk r1.2.1 ue, r1.2.2 ++ [Event.exp (.mk r1.2.1 ue)])
    else
      let r3 := Dispatcher.exp_unannotated V r2.1 ue
      (r3.1, .mk r1.2.1 r3.2.1, r1.2.2 ++ Event.exp (.mk r1.2.1 ue) :: r3.2.2)

/-- Function `Dispatcher::exp_unannotated`: the per-variant walk order. -/
def Dispatcher.exp_unannotated (V : Visitor σ) (s : σ) (ex : UnannotatedExp) :
    σ × UnannotatedExp × List Event :=
  match ex with
  | .ModuleCall name targs ptys args =>
    let r1 := Dispatcher.types V s targs
    let r2 := Dispatcher.types V r1.1 ptys
    let r3 := Dispatcher.exp V r2.1 args
    (r3.1, .ModuleCall name r1.2.1 r2.2.1 r3.2.1, r1.2.2 ++ r2.2.2 ++ r3.2.2)
  | .Use v => (V.var_use s v, .Use v, [Event.var_use v])
  | .Copy fu v => (V.var_use s v, .Copy fu v, [Event.var_use v])
  | .Move fu v => (V.var_use s v, .Move fu v, [Event.var_use v])
  | .BorrowLocal m v => (V.var_use s v, .BorrowLocal m v, [Event.var_use v])
  | .VarCall v e =>
    let s1 := V.var_use s v
    let r := Dispatcher.exp V s1 e
    (r.1, .VarCall v r.2.1, Event.var_use v :: r.2.2)
  | .Lambda decls body =>
    let s1 := V.enter_scope s
    let r1 := Dispatcher.lvalue_list V s1 decls true
    let r2 := Dispatcher.exp V r1.1 body
    (V.exit_scope r2.1, .Lambda r1.2.1 r2.2.1,
      Event.enter_scope :: (r1.2.2 ++ r2.2.2 ++ [Event.exit_scope]))
  | .IfElse c i e =>
    let r1 := Dispatcher.exp V s c
    let r2 := Dispatcher.exp V r1.1 i
    let r3 := Dispatcher.exp V r2.1 e
    (r3.1, .IfElse r1.2.1 r2.2.1 r3.2.1, r1.2.2 ++ r2.2.2 ++ r3.2.2)
  | .While c b =>
    let r1 := Dispatcher.exp V s c
    let r2 := Dispatcher.exp V r1.1 b
    (r2.1, .While r1.2.1 r2.2.1, r1.2.2 ++ r2.2.2)
  | .Block seq =>
    let r := Dispatcher.sequence V s seq
    (r.1, .Block r.2.1, r.2.2)
  | .Mutate d src =>
    let r1 := Dispatcher.exp V s d
    let r2 := Dispatcher.exp V r1.1 src
    (r2.1, .Mutate r1.2.1 r2.2.1, r1.2.2 ++ r2.2.2)
  | .BinopExp l op ty r =>
    let r1 := Dispatcher.type_ V s ty
    let r2 := Dispatcher.exp V r1.1 l
    let r3 := Dispatcher.exp V r2.1 r
    (r3.1, .BinopExp r2.2.1 op r1.2.1 r3.2.1, r1.2.2 ++ r2.2.2 ++ r3.2.2)
  | .Pack m st tys fields =>
    let r1 := Dispatcher.types V s tys
    let r2 := Dispatcher.pack_fields V r1.1 fields
    (r2.1, .Pack m st r1.2.1 r2.2.1, r1.2.2 ++ r2.2.2)
  | .ExpList items =>
    let r := Dispatcher.exp_list_items V s items
    (r.1, .ExpList r.2.1, r.2.2)
  | .Assign lhs tys e =>
    let r1 := Dispatcher.lvalue_list V s lhs false
    let r2 := Dispatcher.types_opt V r1.1 tys
    let r3 := Dispatcher.exp V r2.1 e
    (r3.1, .Assign r1.2.1 r2.2.1 r3.2.1, r1.2.2 ++ r2.2.2 ++ r3.2.2)
  | .Vector n ty e =>
    let r1 := Dispatcher.type_ V s ty
    let r2 := Dispatcher.exp V r1.1 e
    (r2.1, .Vector n r1.2.1 r2.2.1, r1.2.2 ++ r2.2.2)
  | .Cast e ty =>
    let r1 := Dispatcher.type_ V s ty
    let r2 := Dispatcher.exp V r1.1 e
    (r2.1, .Cast r2.2.1 r1.2.1, r1.2.2 ++ r2.2.2)
  | .Annotate e ty =>
    let r1 := Dispatcher.type_ V s ty
    let r2 := Dispatcher.exp V r1.1 e
    (r2.1, .Annotate r2.2.1 r1.2.1, r1.2.2 ++ r2.2.2)
  | .Loop body =>
    let r := Dispatcher.exp V s body
    (r.1, .Loop r.2.1, r.2.2)
  | .Builtin f e =>
    let r := Dispatcher.exp V s e
    (r.1, .Builtin f r.2.1, r.2.2)
  | .Return e =>
    let r := Dispatcher.exp V s e
    (r.1, .Return r.2.1, r.2.2)
  | .Abort e =>
    let r := Dispatcher.exp V s e
    (r.1, .Abort r.2.1, r.2.2)
  | .Dereference e =>
    let r := Dispatcher.exp V s e
    (r.1, .Dereference r.2.1, r.2.2)
  | .UnaryExp op e =>
    let r := Dispatcher.exp V s e
    (r.1, .UnaryExp op r.2.1, r.2.2)
  | .Borrow m e f =>
    let r := Dispatcher.exp V s e
    (r.1, .Borrow m r.2.1 f, r.2.2)
  | .TempBorrow m e =>
    let r := Dispatcher.exp V s e
    (r.1, .TempBorrow m r.2.1, r.2.2)
  | .Unit t => (s, .Unit t, [])
  | .Value v => (s, .Value v, [])
  | .Constant m c => (s, .Constant m c, [])
  | .Break => (s, .Break, [])
  | .Continue => (s, .Continue, [])
  | .Spec a => (s, .Spec a, [])
  | .UnresolvedError => (s, .UnresolvedError, [])

/-- Function `Dispatcher::sequence`: process the statements (counting the scopes
opened by `Bind`/`Declare`), then close exactly that many scopes. -/
def Dispatcher.sequence (V : Visitor σ) (s : σ) (seq : Sequence) :
    σ × Sequence × List Event :=
  let r1 := Dispatcher.sequence_items V s seq
  let r2 := Dispatcher.exit_scopes V r1.1 r1.2.2.2
  (r2.1, r1.2.1, r1.2.2.1 ++ r2.2)

/-- The statement loop of `Dispatcher::sequence`; the final component is
`scope_cnt`, the number of `enter_scope`s issued by the loop itself. -/
def Dispatcher.sequence_items (V : Visitor σ) (s : σ)
    (items : List SequenceItem) : σ × List SequenceItem × List Event × Nat :=
  match items with
  | [] => (s, [], [], 0)
  | .Bind decls tys e :: rest =>
    let s1 := V.enter_scope s
    let r1 := Dispatcher.lvalue_list V s1 decls true
    let r2 := Dispatcher.types_opt V r1.1 tys
    let r3 := Dispatcher.exp V r2.1 e
    let r4 := Dispatcher.sequence_items V r3.1 rest
    (r4.1, .Bind r1.2.1 r2.2.1 r3.2.1 :: r4.2.1,
      Event.enter_scope :: (r1.2.2 ++ r2.2.2 ++ r3.2.2 ++ r4.2.2.1),
      r4.2.2.2 + 1)
  | .Declare decls :: rest =>
    let s1 := V.enter_scope s
    let r1 := Dispatcher.lvalue_list V s1 decls true
    let r4 := Dispatcher.sequence_items V r1.1 rest
    (r4.1, .Declare r1.2.1 :: r4.2.1,
      Event.enter_scope :: (r1.2.2 ++ r4.2.2.1), r4.2.2.2 + 1)
  | .Seq e :: rest =>
    let r1 := Dispatcher.exp V s e
    let r4 := Dispatcher.sequence_items V r1.1 rest
    (r4.1, .Seq r1.2.1 :: r4.2.1, r1.2.2 ++ r4.2.2.1, r4.2.2.2)

/-- Function `Dispatcher::lvalue_list`: process each binding target in order. -/
def Dispatcher.lvalue_list (V : Visitor σ) (s : σ) (decls : List LValue)
    (declared : Bool) : σ × List LValue × List Event :=
  match decls with
  | [] => (s, [], [])
  | lv :: rest =>
    let r1 := Dispatcher.lvalue V s lv declared
    let r2 := Dispatcher.lvalue_list V r1.1 rest declared
    (r2.1, r1.2.1 :: r2.2.1, r1.2.2 ++ r2.2.2)

/-- Function `Dispatcher::lvalue`: simple target → ascribed type then
`var_decl`/`var_use`; destructuring target → type arguments then each
field's type and nested target; ignore → nothing. -/
def Dispatcher.lvalue (V : Visitor σ) (s : σ) (lv : LValue)
    (declared : Bool) : σ × LValue × List Event :=
  match lv with
  | .Var v ty =>
    let r1 := Dispatcher.type_ V s ty
    if declared then
      (V.var_decl r1.1 v, .Var v r1.2.1, r1.2.2 ++ [Event.var_decl v])
    else
      (V.var_use r1.1 v, .Var v r1.2.1, r1.2.2 ++ [Event.var_use v])
  | .Unpack m st tys fields =>
    let r1 := Dispatcher.types V s tys
    let r2 := Dispatcher.unpack_fields V r1.1 fields declared
    (r2.1, .Unpack m st r1.2.1 r2.2.1, r1.2.2 ++ r2.2.2)
  | .BorrowUnpack mu m st tys fields =>
    let r1 := Dispatcher.types V s tys
    let r2 := Dispatcher.unpack_fields V r1.1 fields declared
    (r2.1, .BorrowUnpack mu m st r1.2.1 r2.2.1, r1.2.2 ++ r2.2.2)
  | .Ignore => (s, .Ignore, [])

/-- The item loop of the `ExpList` arm of `Dispatcher::exp_unannotated`. -/
def Dispatcher.exp_list_items (V : Visitor σ) (s : σ)
    (items : List ExpListItem) : σ × List ExpListItem × List Event :=
  match items with
  | [] => (s, [], [])
  | .Single e ty :: rest =>
    let r1 := Dispatcher.type_ V s ty
    let r2 := Dispatcher.exp V r1.1 e
    let r3 := Dispatcher.exp_list_items V r2.1 rest
    (r3.1, .Single r2.2.1 r1.2.1 :: r3.2.1, r1.2.2 ++ r2.2.2 ++ r3.2.2)
  | .Splat e tys :: rest =>
    let r1 := Dispatcher.types V s tys
    let r2 := Dispatcher.exp V r1.1 e
    let r3 := Dispatcher.exp_list_items V r2.1 rest
    (r3.1, .Splat r2.2.1 r1.2.1 :: r3.2.1, r1.2.2 ++ r2.2.2 ++ r3.2.2)

/-- The field loop of the `Pack` arm: each field's type then initializer. -/
def Dispatcher.pack_fields (V : Visitor σ) (s : σ)
    (fields : List (Type_ × Exp)) : σ × List (Type_ × Exp) × List Event :=
  match fields with
  | [] => (s, [], [])
  | (ty, e) :: rest =>
    let r1 := Dispatcher.type_ V s ty
    let r2 := Dispatcher.exp V r1.1 e
    let r3 := Dispatcher.pack_fields V r2.1 rest
    (r3.1, (r1.2.1, r2.2.1) :: r3.2.1, r1.2.2 ++ r2.2.2 ++ r3.2.2)

/-- The field loop of the `Unpack`/`BorrowUnpack` arms of
`Dispatcher::lvalue`: each field's type then nested target. -/
def Dispatcher.unpack_fields (V : Visitor σ) (s : σ)
    (fields : List (Type_ × LValue)) (declared : Bool) :
    σ × List (Type_ × LValue) × List Event :=
  match fields with
  | [] => (s, [], [])
  | (ty, slv) :: rest =>
    let r1 := Dispatcher.type_ V s ty
    let r2 := Dispatcher.lvalue V r1.1 slv declared
    let r3 := Dispatcher.unpack_fields V r2.1 rest declared
    (r3.1, (r1.2.1, r2.2.1) :: r3.2.1, r1.2.2 ++ r2.2.2 ++ r3.2.2)

end

/-- The parameter loop of `Dispatcher::function`
(`for (var, _) in fdef.signature.parameters.iter_mut()`): only
`var_decl` is called; the parameter's type is ignored. -/
def Dispatcher.var_decls (V : Visitor σ) : σ → List (Var × Type_) → σ × List Event
  | s, [] => (s, [])
  | s, (v, _) :: rest =>
    let r := Dispatcher.var_decls V (V.var_decl s v) rest
    (r.1, Event.var_decl v :: r.2)

/-- Function `Dispatcher::function`: `enter_scope`, register the parameters, walk
a defined body (nothing for a native one), `exit_scope`. -/
def Dispatcher.function (V : Visitor σ) (s : σ) (fdef : Function) :
    σ × Function × List Event :=
  let s1 := V.enter_scope s
  let r1 := Dispatcher.var_decls V s1 fdef.signature.parameters
  let r2 :=
    match fdef.body with
    | .Native => (r1.1, FunctionBody.Native, ([] : List Event))
    | .Defined seq =>
      let r := Dispatcher.sequence V r1.1 seq
      (r.1, FunctionBody.Defined r.2.1, r.2.2)
  (V.exit_scope r2.1, Function.mk fdef.signature r2.2.1,
    Event.enter_scope :: (r1.2 ++ r2.2.2 ++ [Event.exit_scope]))

/-! ### The engine rebuilds every node unchanged

The dispatcher reassembles each node from the results of its recursive
calls; since the hooks modeled here do not rewrite nodes, the reassembled
node must equal the input node. -/

/-- Functions `Dispatcher.type_`/`Dispatcher.types` return their input unchanged. -/
theorem Dispatcher.type_id (V : Visitor σ) :
    (∀ (s : σ) (ty : Type_), (Dispatcher.type_ V s ty).2.1 = ty) ∧
      ∀ (s : σ) (tys : List Type_), (Dispatcher.types V s tys).2.1 = tys := by
  apply Dispatcher.type_.mutual_induct (V := V)
  case case1 =>
    intro t s r h
    have h2 : (V.type_ s t).2 = VisitorContinuation.Stop := h
    rw [Dispatcher.type_.eq_def]
    simp [h2]
  all_goals intros
  all_goals simp_all +zetaDelta [Dispatcher.type_, Dispatcher.types]

/-- Function `Dispatcher.types_opt` returns its input unchanged. -/
theorem Dispatcher.types_opt_id (V : Visitor σ) :
    ∀ (s : σ) (tys : List (Option Type_)),
      (Dispatcher.types_opt V s tys).2.1 = tys := by
  intro s tys
  induction tys generalizing s with
  | nil => simp [Dispatcher.types_opt]
  | cons h t ih =>
    cases h <;> simp [Dispatcher.types_opt, (Dispatcher.type_id V).1, ih]

/-- Functions `Dispatcher.lvalue`/`Dispatcher.unpack_fields` return their input
unchanged. -/
theorem Dispatcher.lvalue_id (V : Visitor σ) :
    (∀ (s : σ) (lv : LValue) (declared : Bool),
      (Dispatcher.lvalue V s lv declared).2.1 = lv) ∧
    ∀ (s : σ) (fields : List (Type_ × LValue)) (declared : Bool),
      (Dispatcher.unpack_fields V s fields declared).2.1 = fields := by
  apply Dispatcher.lvalue.mutual_induct (V := V) <;> intros <;>
    simp_all +zetaDelta [Dispatcher.lvalue, Dispatcher.unpack_fields,
      (Dispatcher.type_id V).1, (Dispatcher.type_id V).2]

/-- Function `Dispatcher.lvalue_list` returns its input unchanged. -/
theorem Dispatcher.lvalue_list_id (V : Visitor σ) :
    ∀ (s : σ) (decls : List LValue) (declared : Bool),
      (Dispatcher.lvalue_list V s decls declared).2.1 = decls := by
  intro s decls declared
  induction decls generalizing s with
  | nil => simp [Dispatcher.lvalue_list]
  | cons lv rest ih =>
    simp [Dispatcher.lvalue_list, (Dispatcher.lvalue_id V).1, ih]

/-- Every function of the expression dispatcher family returns the node
it was given unchanged. -/
theorem Dispatcher.exp_id (V : Visitor σ) :
    (∀ (s : σ) (ex : Exp), (Dispatcher.exp V s ex).2.1 = ex) ∧
    (∀ (s : σ) (ex : UnannotatedExp),
      (Dispatcher.exp_unannotated V s ex).2.1 = ex) ∧
    (∀ (s : σ) (items : List ExpListItem),
      (Dispatcher.exp_list_items V s items).2.1 = items) ∧
    (∀ (s : σ) (fields : List (Type_ × Exp)),
      (Dispatcher.pack_fields V s fields).2.1 = fields) ∧
    (∀ (s : σ) (seq : Sequence), (Dispatcher.sequence V s seq).2.1 = seq) ∧
    ∀ (s : σ) (items : List SequenceItem),
      (Dispatcher.sequence_items V s items).2.1 = items := by
  apply Dispatcher.exp.mutual_induct (V := V) <;> intros <;>
    simp_all +zetaDelta [Dispatcher.exp, Dispatcher.exp_unannotated,
      Dispatcher.exp_list_items, Dispatcher.pack_fields, Dispatcher.sequence,
      Dispatcher.sequence_items, (Dispatcher.type_id V).1,
      (Dispatcher.type_id V).2, Dispatcher.types_opt_id V,
      Dispatcher.lvalue_list_id V]

/-! ### Scope bracketing -/

/-- One-counter bracket checker over a trace: `enter_scope` pushes,
`exit_scope` pops (failing on an unmatched pop), every other event is
passed over.  `scopeCheck tr 0 = some 0` says the scope events of `tr`
form a balanced bracket sequence: every `enter_scope` is matched by
exactly one later `exit_scope`, and the matched pairs nest in strict
last-opened-first-closed order. -/
def scopeCheck : List Event → Nat → Option Nat
  | [], k => some k
  | Event.enter_scope :: tr, k => scopeCheck tr (k + 1)
  | Event.exit_scope :: tr, k =>
    match k with
    | 0 => none
    | j + 1 => scopeCheck tr j
  | Event.exp _ :: tr, k => scopeCheck tr k
  | Event.type_ _ :: tr, k => scopeCheck tr k
  | Event.var_decl _ :: tr, k => scopeCheck tr k
  | Event.var_use _ :: tr, k => scopeCheck tr k
  | Event.infer_abilities _ :: tr, k => scopeCheck tr k

theorem scopeCheck_append (a b : List Event) :
    ∀ k, scopeCheck (a ++ b) k =
      (scopeCheck a k).bind (fun j => scopeCheck b j) := by
  induction a with
  | nil => intro k; simp [scopeCheck]
  | cons e tr ih =>
    intro k
    cases e <;> try simp [scopeCheck, ih]
    cases k <;> simp [scopeCheck, ih]

/-- Type traversal issues no scope brackets. -/
theorem Dispatcher.type_scope (V : Visitor σ) :
    (∀ (s : σ) (ty : Type_) (k : Nat),
      scopeCheck (Dispatcher.type_ V s ty).2.2 k = some k) ∧
    ∀ (s : σ) (tys : List Type_) (k : Nat),
      scopeCheck (Dispatcher.types V s tys).2.2 k = some k := by
  apply Dispatcher.type_.mutual_induct (V := V)
  case case1 =>
    intro t s r h
    have h2 : (V.type_ s t).2 = VisitorContinuation.Stop := h
    intro k
    rw [Dispatcher.type_.eq_def]
    simp [h2, scopeCheck]
  all_goals intros
  all_goals
    simp_all +zetaDelta [Dispatcher.type_, Dispatcher.types, scopeCheck,
      scopeCheck_append]

/-- Optional-type traversal issues no scope brackets. -/
theorem Dispatcher.types_opt_scope (V : Visitor σ) :
    ∀ (s : σ) (tys : List (Option Type_)) (k : Nat),
      scopeCheck (Dispatcher.types_opt V s tys).2.2 k = some k := by
  intro s tys
  induction tys generalizing s with
  | nil => intro k; simp [Dispatcher.types_opt, scopeCheck]
  | cons h t ih =>
    intro k
    cases h <;>
      simp [Dispatcher.types_opt, scopeCheck, scopeCheck_append,
        (Dispatcher.type_scope V).1, ih]

/-- Binding-target traversal issues no scope brackets. -/
theorem Dispatcher.lvalue_scope (V : Visitor σ) :
    (∀ (s : σ) (lv : LValue) (declared : Bool) (k : Nat),
      scopeCheck (Dispatcher.lvalue V s lv declared).2.2 k = some k) ∧
    ∀ (s : σ) (fields : List (Type_ × LValue)) (declared : Bool) (k : Nat),
      scopeCheck (Dispatcher.unpack_fields V s fields declared).2.2 k
        = some k := by
  apply Dispatcher.lvalue.mutual_induct (V := V) <;> intros <;>
    simp_all +zetaDelta [Dispatcher.lvalue, Dispatcher.unpack_fields,
      scopeCheck, scopeCheck_append, (Dispatcher.type_scope V).1,
      (Dispatcher.type_scope V).2]

/-- Pattern traversal issues no scope brackets. -/
theorem Dispatcher.lvalue_list_scope (V : Visitor σ) :
    ∀ (s : σ) (decls : List LValue) (declared : Bool) (k : Nat),
      scopeCheck (Dispatcher.lvalue_list V s decls declared).2.2 k
        = some k := by
  intro s decls declared
  induction decls generalizing s with
  | nil => intro k; simp [Dispatcher.lvalue_list, scopeCheck]
  | cons lv rest ih =>
    intro k
    simp [Dispatcher.lvalue_list, scopeCheck_append,
      (Dispatcher.lvalue_scope V).1, ih]

/-- The closing loop emits exactly `n` `exit_scope` events. -/
theorem Dispatcher.exit_scopes_trace (V : Visitor σ) :
    ∀ (n : Nat) (s : σ),
      (Dispatcher.exit_scopes V s n).2 = List.replicate n Event.exit_scope := by
  intro n
  induction n with
  | zero => intro s; simp [Dispatcher.exit_scopes]
  | succ m ih => intro s; simp [Dispatcher.exit_scopes, ih, List.replicate_succ]

theorem scopeCheck_exits (n : Nat) :
    ∀ k, scopeCheck (List.replicate n Event.exit_scope) (k + n) = some k := by
  induction n with
  | zero => intro k; simp [scopeCheck]
  | succ m ih => intro k; simpa [List.replicate_succ, scopeCheck] using ih k

/-- Scope bracketing of the expression dispatcher family: expression
traversal is bracket-neutral, and the statement loop of a sequence leaves
exactly `scope_cnt` brackets open. -/
theorem Dispatcher.exp_scope (V : Visitor σ) :
    (∀ (s : σ) (ex : Exp) (k : Nat),
      scopeCheck (Dispatcher.exp V s ex).2.2 k = some k) ∧
    (∀ (s : σ) (ex : UnannotatedExp) (k : Nat),
      scopeCheck (Dispatcher.exp_unannotated V s ex).2.2 k = some k) ∧
    (∀ (s : σ) (items : List ExpListItem) (k : Nat),
      scopeCheck (Dispatcher.exp_list_items V s items).2.2 k = some k) ∧
    (∀ (s : σ) (fields : List (Type_ × Exp)) (k : Nat),
      scopeCheck (Dispatcher.pack_fields V s fields).2.2 k = some k) ∧
    (∀ (s : σ) (seq : Sequence) (k : Nat),
      scopeCheck (Dispatcher.sequence V s seq).2.2 k = some k) ∧
    ∀ (s : σ) (items : List SequenceItem) (k : Nat),
      scopeCheck (Dispatcher.sequence_items V s items).2.2.1 k =
        some (k + (Dispatcher.sequence_items V s items).2.2.2) := by
  apply Dispatcher.exp.mutual_induct (V := V)
  all_goals intros
  all_goals
    simp_all +zetaDelta [Dispatcher.exp, Dispatcher.exp_unannotated,
      Dispatcher.exp_list_items, Dispatcher.pack_fields, Dispatcher.sequence,
      Dispatcher.sequence_items, scopeCheck, scopeCheck_append,
      (Dispatcher.type_scope V).1, (Dispatcher.type_scope V).2,
      Dispatcher.types_opt_scope V, (Dispatcher.lvalue_scope V).1,
      Dispatcher.lvalue_list_scope V, Dispatcher.exit_scopes_trace V,
      scopeCheck_exits]
  all_goals omega

/-- The parameter loop emits exactly one `var_decl` event per parameter,
in signature order. -/
theorem Dispatcher.var_decls_trace (V : Visitor σ) :
    ∀ (s : σ) (ps : List (Var × Type_)),
      (Dispatcher.var_decls V s ps).2 =
        ps.map (fun p => Event.var_decl p.1) := by
  intro s ps
  induction ps generalizing s with
  | nil => simp [Dispatcher.var_decls]
  | cons p rest ih => simp [Dispatcher.var_decls, ih]

theorem scopeCheck_var_decl_events (ps : List (Var × Type_)) :
    ∀ k, scopeCheck (ps.map (fun p => Event.var_decl p.1)) k = some k := by
  induction ps with
  | nil => intro k; simp [scopeCheck]
  | cons p rest ih => intro k; simp [scopeCheck, ih]

/-- Claim C1 (invariants): for every `Function` traversed by
`Dispatcher.function` — with any visitor, hence any combination of
`Stop`/`Descend` answers, and any nesting of `Bind`/`Declare` statements
and `Lambda` expressions — the emitted `enter_scope`/`exit_scope` events
form a balanced bracket sequence: every `enter_scope` is matched by
exactly one `exit_scope`, and the matching pairs nest in strict
last-opened-first-closed (stack) order.  `scopeCheck` is the one-counter
bracket checker; acceptance (`some 0` from `0`) is exactly matched,
stack-ordered bracketing. -/
theorem function_scope_discipline {σ : Type} (V : Visitor σ) (s : σ)
    (fdef : Function) :
    scopeCheck (Dispatcher.function V s fdef).2.2 0 = some 0 := by
  cases fdef with
  | mk sig body =>
    cases body <;>
      simp [Dispatcher.function, scopeCheck, scopeCheck_append,
        Dispatcher.var_decls_trace V, scopeCheck_var_decl_events,
        (Dispatcher.exp_scope V).2.2.2.2.1]

/-- A function definition used to refute the parameter-type part of the
parameter-registration claim: one parameter of applied (compound) type,
native body. -/
def paramFun : Function :=
  Function.mk (FunctionSignature.mk [(0, Type_.Apply none 5 [])])
    FunctionBody.Native

/-- Claim C2 counterexample: traversing `paramFun` emits `var_decl` for the
parameter but no `type_` event whatsoever — `Dispatcher.function` reads
`for (var, _) in fdef.signature.parameters` and never visits the
parameter's declared type, so no `type_` hook fires before `var_decl`. -/
theorem function_param_type_not_visited :
    (Dispatcher.function defaultVisitor () paramFun).2.2 =
      [Event.enter_scope, Event.var_decl 0, Event.exit_scope] ∧
    ∀ t, Event.type_ t ∉ (Dispatcher.function defaultVisitor () paramFun).2.2 := by
  constructor
  · simp [Dispatcher.function, Dispatcher.var_decls, paramFun]
  · intro t
    simp [Dispatcher.function, Dispatcher.var_decls, paramFun]

/-- Claim C2 amended: `Dispatcher.function` registers each parameter via
`var_decl` in left-to-right signature order, with no type visit — the
trace of a function is the `enter_scope` bracket, one `var_decl` event
per parameter in order (and no `type_` event for any parameter type),
the body's trace, and the closing `exit_scope`. -/
theorem function_param_decls {σ : Type} (V : Visitor σ) (s : σ)
    (fdef : Function) :
    (Dispatcher.function V s fdef).2.2 =
      Event.enter_scope ::
        (fdef.signature.parameters.map (fun p => Event.var_decl p.1) ++
          (match fdef.body with
           | .Native => []
           | .Defined seq =>
             (Dispatcher.sequence V
               (Dispatcher.var_decls V (V.enter_scope s)
                 fdef.signature.parameters).1 seq).2.2) ++
          [Event.exit_scope]) := by
  cases fdef with
  | mk sig body =>
    cases body <;> simp [Dispatcher.function, Dispatcher.var_decls_trace V]

/-- Claim C3 amended: on `Descend`, an unbounded loop (`Loop`) dispatches
into the loop body only, while a bounded loop (`While`) dispatches into
the condition first and then the body. -/
theorem loop_while_descend {σ : Type} (V : Visitor σ) (s : σ) (c b : Exp) :
    (Dispatcher.exp_unannotated V s (UnannotatedExp.Loop b)).2.2 =
      (Dispatcher.exp V s b).2.2 ∧
    (Dispatcher.exp_unannotated V s (UnannotatedExp.While c b)).2.2 =
      (Dispatcher.exp V s c).2.2 ++
        (Dispatcher.exp V (Dispatcher.exp V s c).1 b).2.2 := by
  constructor <;> simp [Dispatcher.exp_unannotated]

/-- A `While` node whose condition reads variable `7` and whose body is a
bare `Break`. -/
def whileLoop : Exp :=
  Exp.mk Type_.Unit
    (UnannotatedExp.While (Exp.mk Type_.Unit (UnannotatedExp.Use 7))
      (Exp.mk Type_.Unit UnannotatedExp.Break))

/-- Claim C3 counterexample: with the default visitor (all hooks `Descend`),
traversing `whileLoop` produces a trace containing `var_use 7` — an event
that arises neither from the node's own type visit nor from the loop
body's traversal, but from the condition.  A bounded (`While`) loop does
not visit "the loop body only". -/
theorem while_visits_condition :
    (Dispatcher.exp defaultVisitor () whileLoop).2.2 =
      [Event.type_ Type_.Unit, Event.exp whileLoop,
       Event.type_ Type_.Unit,
       Event.exp (Exp.mk Type_.Unit (UnannotatedExp.Use 7)),
       Event.var_use 7,
       Event.type_ Type_.Unit,
       Event.exp (Exp.mk Type_.Unit UnannotatedExp.Break)] ∧
    Event.var_use 7 ∈ (Dispatcher.exp defaultVisitor () whileLoop).2.2 ∧
    Event.var_use 7 ∉
      (Dispatcher.exp defaultVisitor ()
        (Exp.mk Type_.Unit UnannotatedExp.Break)).2.2 ∧
    Event.var_use 7 ∉ (Dispatcher.type_ defaultVisitor () Type_.Unit).2.2 := by
  refine ⟨?_, ?_, ?_, ?_⟩ <;>
    simp [Dispatcher.exp, Dispatcher.exp_unannotated, Dispatcher.type_,
      defaultVisitor, whileLoop]

/-- The whole dispatcher rebuilds a function unchanged, for any visitor. -/
theorem Dispatcher.function_id (V : Visitor σ) (s : σ) (fdef : Function) :
    (Dispatcher.function V s fdef).2.1 = fdef := by
  cases fdef with
  | mk sig body =>
    cases body <;>
      simp [Dispatcher.function, (Dispatcher.exp_id V).2.2.2.2.1]

/-- Claim C10 (frame effect): running `Dispatcher.function` with a visitor
that uses only the trait's default hook implementations (all no-ops
returning `Descend`) returns the `Function` — signature, body and every
nested node — unchanged: the engine itself performs no mutation of the
IR. -/
theorem default_visitor_preserves_function (fdef : Function) :
    (Dispatcher.function defaultVisitor () fdef).2.1 = fdef :=
  Dispatcher.function_id defaultVisitor () fdef

/-- Every type traversal's trace opens with the `type_` hook event for
the node itself. -/
theorem Dispatcher.type_trace_head (V : Visitor σ) (s : σ) (ty : Type_) :
    ∃ tl, (Dispatcher.type_ V s ty).2.2 = Event.type_ ty :: tl := by
  rw [Dispatcher.type_.eq_def]
  by_cases h : (V.type_ s ty).2 = VisitorContinuation.Stop
  · exact ⟨[], by simp [h]⟩
  · cases ty <;> simp [h]

/-- Claim C4: for every expression node dispatched through
`Dispatcher.exp`, the `type_` hook for the node's inferred type — and all
nested type hooks, i.e. the entire trace of `Dispatcher.type_` on
`ex.ty` — fires strictly before the `exp` hook event for the node
itself. -/
theorem exp_type_before_exp_hook {σ : Type} (V : Visitor σ) (s : σ)
    (ex : Exp) :
    ∃ ttl rest,
      (Dispatcher.type_ V s ex.ty).2.2 = Event.type_ ex.ty :: ttl ∧
      (Dispatcher.exp V s ex).2.2 =
        (Dispatcher.type_ V s ex.ty).2.2 ++ Event.exp ex :: rest := by
  obtain ⟨tl, htl⟩ := Dispatcher.type_trace_head V s ex.ty
  cases ex with
  | mk ty ue =>
    simp only [Exp.ty] at htl ⊢
    by_cases h : (V.exp (Dispatcher.type_ V s ty).1 (Exp.mk ty ue)).2 =
      VisitorContinuation.Stop
    · refine ⟨tl, [], htl, ?_⟩
      simp [Dispatcher.exp, (Dispatcher.type_id V).1, h]
    · refine ⟨tl,
        (Dispatcher.exp_unannotated V
          (V.exp (Dispatcher.type_ V s ty).1 (Exp.mk ty ue)).1 ue).2.2,
        htl, ?_⟩
      simp [Dispatcher.exp, (Dispatcher.type_id V).1, h]

/-- Claim C8: if the `type_` hook answers `Stop` on a type node, the
dispatcher returns at once: the state is the hook's state, the node is
unchanged, the trace is the lone `type_` event — no descent into the
type's substructure — and in particular no `infer_abilities` event is
emitted for that node. -/
theorem type_stop_no_descent {σ : Type} (V : Visitor σ) (s : σ) (ty : Type_)
    (h : (V.type_ s ty).2 = VisitorContinuation.Stop) :
    Dispatcher.type_ V s ty = ((V.type_ s ty).1, ty, [Event.type_ ty]) ∧
    ∀ t, Event.infer_abilities t ∉ (Dispatcher.type_ V s ty).2.2 := by
  have h1 : Dispatcher.type_ V s ty = ((V.type_ s ty).1, ty, [Event.type_ ty]) := by
    rw [Dispatcher.type_.eq_def]
    simp [h]
  refine ⟨h1, ?_⟩
  intro t
  rw [h1]
  simp

/-- A visitor that answers `Stop` at every expression and type node. -/
def stopVisitor : Visitor Unit where
  exp := fun s _ => (s, .Stop)
  type_ := fun s _ => (s, .Stop)

/-- Witness for the `type_` `Stop` claim at a concrete compound type. -/
theorem type_stop_no_descent_witness :
    Dispatcher.type_ stopVisitor () (Type_.Apply none 3 [Type_.Unit]) =
      ((), Type_.Apply none 3 [Type_.Unit],
        [Event.type_ (Type_.Apply none 3 [Type_.Unit])]) ∧
    ∀ t, Event.infer_abilities t ∉
      (Dispatcher.type_ stopVisitor () (Type_.Apply none 3 [Type_.Unit])).2.2 :=
  type_stop_no_descent stopVisitor () (Type_.Apply none 3 [Type_.Unit]) rfl

/-- Claim C5: if the `exp` hook answers `Stop` on node `N = Exp.mk ty ue`,
the dispatcher returns right after the hook: the trace is exactly `N`'s
own inferred-type trace (which the engine performs before the hook)
followed by the single `exp` event — so no `var_use`, `var_decl`, nested
`exp` or nested `type_` hook fires for any proper descendant of `N`.
Meanwhile a sibling statement list after `N` is traversed by exactly the
same rule as always: the sequence trace is `N`'s expression trace
followed by the plain traversal of the remaining statements from the
post-`N` state, so siblings (and hence ancestors, which just concatenate
their parts) proceed as they would otherwise. -/
theorem exp_stop_prunes_subtree_only {σ : Type} (V : Visitor σ) (s s' : σ)
    (ty : Type_) (ue : UnannotatedExp) (rest : List SequenceItem)
    (h : (V.exp (Dispatcher.type_ V s ty).1 (Exp.mk ty ue)).2 =
      VisitorContinuation.Stop) :
    (Dispatcher.exp V s (Exp.mk ty ue)).2.2 =
      (Dispatcher.type_ V s ty).2.2 ++ [Event.exp (Exp.mk ty ue)] ∧
    (Dispatcher.sequence V s' (SequenceItem.Seq (Exp.mk ty ue) :: rest)).2.2 =
      (Dispatcher.exp V s' (Exp.mk ty ue)).2.2 ++
        (Dispatcher.sequence V
          (Dispatcher.exp V s' (Exp.mk ty ue)).1 rest).2.2 := by
  constructor
  · simp [Dispatcher.exp, (Dispatcher.type_id V).1, h]
  · simp [Dispatcher.sequence, Dispatcher.sequence_items, List.append_assoc]

/-- Witness for the expression-`Stop` claim at a concrete node with a
concrete sibling statement. -/
theorem exp_stop_prunes_subtree_only_witness :
    (Dispatcher.exp stopVisitor () (Exp.mk Type_.Unit (UnannotatedExp.Use 3))).2.2 =
      (Dispatcher.type_ stopVisitor () Type_.Unit).2.2 ++
        [Event.exp (Exp.mk Type_.Unit (UnannotatedExp.Use 3))] ∧
    (Dispatcher.sequence stopVisitor ()
        (SequenceItem.Seq (Exp.mk Type_.Unit (UnannotatedExp.Use 3)) ::
          [SequenceItem.Seq (Exp.mk Type_.Unit UnannotatedExp.Break)])).2.2 =
      (Dispatcher.exp stopVisitor () (Exp.mk Type_.Unit (UnannotatedExp.Use 3))).2.2 ++
        (Dispatcher.sequence stopVisitor ()
          [SequenceItem.Seq (Exp.mk Type_.Unit UnannotatedExp.Break)]).2.2 := by
  have h := exp_stop_prunes_subtree_only stopVisitor () () Type_.Unit
    (UnannotatedExp.Use 3) [SequenceItem.Seq (Exp.mk Type_.Unit UnannotatedExp.Break)] rfl
  exact ⟨h.1, h.2⟩

/-- Every `infer_abilities` event emitted anywhere in a type traversal
carries an applied/compound (`Apply`) type node. -/
theorem Dispatcher.infer_abilities_only_apply (V : Visitor σ) :
    (∀ (s : σ) (ty : Type_) (t : Type_),
      Event.infer_abilities t ∈ (Dispatcher.type_ V s ty).2.2 →
        ∃ abs n args, t = Type_.Apply abs n args) ∧
    ∀ (s : σ) (tys : List Type_) (t : Type_),
      Event.infer_abilities t ∈ (Dispatcher.types V s tys).2.2 →
        ∃ abs n args, t = Type_.Apply abs n args := by
  apply Dispatcher.type_.mutual_induct (V := V)
  case case1 =>
    intro ty s r h t hm
    have h2 : (V.type_ s ty).2 = VisitorContinuation.Stop := h
    rw [(type_stop_no_descent V s ty h2).1] at hm
    simp at hm
  case case2 =>
    intro s m t1 r h ih t hm
    have h2 : ¬(V.type_ s (Type_.Ref m t1)).2 = VisitorContinuation.Stop := h
    rw [Dispatcher.type_.eq_def] at hm
    simp [h2] at hm
    exact ih t hm
  case case3 =>
    intro s abs n tys r h ih t hm
    have h2 : ¬(V.type_ s (Type_.Apply abs n tys)).2 = VisitorContinuation.Stop := h
    rw [Dispatcher.type_.eq_def] at hm
    simp [h2] at hm
    rcases hm with hm | hm
    · exact ih t hm
    · exact ⟨abs, n, _, hm⟩
  case case10 =>
    intro s t1 rest r1 ih1 ih2 t hm
    rw [Dispatcher.types.eq_def] at hm
    simp at hm
    rcases hm with hm | hm
    · exact ih1 t hm
    · exact ih2 t hm
  all_goals intros
  all_goals simp_all +zetaDelta [Dispatcher.type_, Dispatcher.types]

/-- Atomic leaf type kinds produce the lone `type_` event, whatever the
hook answers. -/
theorem Dispatcher.type_leaf_trace (V : Visitor σ) (s : σ) (ty : Type_)
    (h : ty = Type_.Unit ∨ (∃ p, ty = Type_.Param p) ∨
      (∃ v, ty = Type_.Var v) ∨ ty = Type_.Anything ∨
      ty = Type_.UnresolvedError) :
    (Dispatcher.type_ V s ty).2.2 = [Event.type_ ty] := by
  by_cases h2 : (V.type_ s ty).2 = VisitorContinuation.Stop
  · rw [(type_stop_no_descent V s ty h2).1]
  · rcases h with rfl | ⟨p, rfl⟩ | ⟨v, rfl⟩ | rfl | rfl <;>
      simp [Dispatcher.type_, h2]

/-- Claim C6: for a compound (`Apply`) type node on which the `type_` hook
answers `Descend`, the trace is the node's `type_` event, then the whole
trace of its type-argument substructure, then exactly one
`infer_abilities` event for the node — i.e. `infer_abilities` fires once,
after all of the node's type arguments have been visited.  For the five
atomic leaf kinds the trace is the lone `type_` event, so
`infer_abilities` never fires for them; and every `infer_abilities` event
of any type traversal carries an `Apply` node, so it is never fired for
the reference kind either. -/
theorem infer_abilities_once_after_args {σ : Type} (V : Visitor σ) (s : σ)
    (abs : Option Nat) (n : Nat) (tys : List Type_)
    (h : (V.type_ s (Type_.Apply abs n tys)).2 ≠ VisitorContinuation.Stop) :
    (Dispatcher.type_ V s (Type_.Apply abs n tys)).2.2 =
      Event.type_ (Type_.Apply abs n tys) ::
        ((Dispatcher.types V (V.type_ s (Type_.Apply abs n tys)).1 tys).2.2 ++
          [Event.infer_abilities (Type_.Apply abs n tys)]) ∧
    (∀ (s2 : σ) (lf : Type_),
      (lf = Type_.Unit ∨ (∃ p, lf = Type_.Param p) ∨
        (∃ v, lf = Type_.Var v) ∨ lf = Type_.Anything ∨
        lf = Type_.UnresolvedError) →
      (Dispatcher.type_ V s2 lf).2.2 = [Event.type_ lf]) ∧
    ∀ (s2 : σ) (ty : Type_) (t : Type_),
      Event.infer_abilities t ∈ (Dispatcher.type_ V s2 ty).2.2 →
        ∃ a m args, t = Type_.Apply a m args := by
  refine ⟨?_, fun s2 lf hlf => Dispatcher.type_leaf_trace V s2 lf hlf,
    fun s2 ty t => (Dispatcher.infer_abilities_only_apply V).1 s2 ty t⟩
  simp [Dispatcher.type_, h, (Dispatcher.type_id V).2]

/-- Witness for the `infer_abilities` claim at a concrete compound type. -/
theorem infer_abilities_once_after_args_witness :
    (Dispatcher.type_ defaultVisitor () (Type_.Apply none 3 [Type_.Unit])).2.2 =
      Event.type_ (Type_.Apply none 3 [Type_.Unit]) ::
        ((Dispatcher.types defaultVisitor () [Type_.Unit]).2.2 ++
          [Event.infer_abilities (Type_.Apply none 3 [Type_.Unit])]) :=
  (infer_abilities_once_after_args defaultVisitor () none 3 [Type_.Unit]
    (by decide)).1

/-- Expression `f(x)`: a module call whose single argument reads variable `x = 0`. -/
def callFX : Exp :=
  Exp.mk Type_.Unit
    (UnannotatedExp.ModuleCall 0 [] [] (Exp.mk Type_.Unit (UnannotatedExp.Use 0)))

/-- Expression `g(x, y)`: a module call whose argument tuple reads `x = 0` and then
`y = 1`. -/
def callGXY : Exp :=
  Exp.mk Type_.Unit
    (UnannotatedExp.ModuleCall 1 [] []
      (Exp.mk Type_.Unit
        (UnannotatedExp.ExpList
          [ExpListItem.Single (Exp.mk Type_.Unit (UnannotatedExp.Use 0)) Type_.Unit,
           ExpListItem.Single (Exp.mk Type_.Unit (UnannotatedExp.Use 1)) Type_.Unit])))

/-- The sequence `[Declare x, Bind y = f(x), Seq g(x, y)]` with `x = 0`,
`y = 1`. -/
def seqDBS : Sequence :=
  [SequenceItem.Declare [LValue.Var 0 Type_.Unit],
   SequenceItem.Bind [LValue.Var 1 Type_.Unit] [none] callFX,
   SequenceItem.Seq callGXY]

/-- Claim C7: scopes opened by `Bind`/`Declare` stay open through all later
statements of the sequence and are closed together only after the last
statement (final conjunct: for every sequence, the trace is the statement
loop's trace followed by exactly `scope_cnt` trailing `exit_scope`
events).  On `[Declare x, Bind y = f(x), Seq g(x, y)]` the trace is
computed explicitly: 2 `enter_scope` and 2 `exit_scope` events in total,
`var_decl 0` (`x`) before `var_decl 1` (`y`), `var_use 0` while visiting
`f(x)`, `var_use 0` and `var_use 1` while visiting `g(x, y)`, and both
`exit_scope` events (closing the `y` scope then the `x` scope, in
last-opened-first-closed order) after all of statement 3's visits, with
nothing interleaved. -/
theorem sequence_cumulative_scopes :
    (Dispatcher.sequence defaultVisitor () seqDBS).2.2 =
      [Event.enter_scope, Event.type_ Type_.Unit, Event.var_decl 0,
       Event.enter_scope, Event.type_ Type_.Unit, Event.var_decl 1,
       Event.type_ Type_.Unit, Event.exp callFX,
       Event.type_ Type_.Unit,
       Event.exp (Exp.mk Type_.Unit (UnannotatedExp.Use 0)), Event.var_use 0,
       Event.type_ Type_.Unit, Event.exp callGXY,
       Event.type_ Type_.Unit,
       Event.exp (Exp.mk Type_.Unit (UnannotatedExp.ExpList
         [ExpListItem.Single (Exp.mk Type_.Unit (UnannotatedExp.Use 0)) Type_.Unit,
          ExpListItem.Single (Exp.mk Type_.Unit (UnannotatedExp.Use 1)) Type_.Unit])),
       Event.type_ Type_.Unit, Event.type_ Type_.Unit,
       Event.exp (Exp.mk Type_.Unit (UnannotatedExp.Use 0)), Event.var_use 0,
       Event.type_ Type_.Unit, Event.type_ Type_.Unit,
       Event.exp (Exp.mk Type_.Unit (UnannotatedExp.Use 1)), Event.var_use 1,
       Event.exit_scope, Event.exit_scope] ∧
    ((Dispatcher.sequence defaultVisitor () seqDBS).2.2.filter
      (fun e => match e with | Event.enter_scope => true | _ => false)).length = 2 ∧
    ((Dispatcher.sequence defaultVisitor () seqDBS).2.2.filter
      (fun e => match e with | Event.exit_scope => true | _ => false)).length = 2 ∧
    ∀ {σ : Type} (V : Visitor σ) (s : σ) (seq : Sequence),
      (Dispatcher.sequence V s seq).2.2 =
        (Dispatcher.sequence_items V s seq).2.2.1 ++
          List.replicate (Dispatcher.sequence_items V s seq).2.2.2
            Event.exit_scope := by
  have h : (Dispatcher.sequence defaultVisitor () seqDBS).2.2 =
      [Event.enter_scope, Event.type_ Type_.Unit, Event.var_decl 0,
       Event.enter_scope, Event.type_ Type_.Unit, Event.var_decl 1,
       Event.type_ Type_.Unit, Event.exp callFX,
       Event.type_ Type_.Unit,
       Event.exp (Exp.mk Type_.Unit (UnannotatedExp.Use 0)), Event.var_use 0,
       Event.type_ Type_.Unit, Event.exp callGXY,
       Event.type_ Type_.Unit,
       Event.exp (Exp.mk Type_.Unit (UnannotatedExp.ExpList
         [ExpListItem.Single (Exp.mk Type_.Unit (UnannotatedExp.Use 0)) Type_.Unit,
          ExpListItem.Single (Exp.mk Type_.Unit (UnannotatedExp.Use 1)) Type_.Unit])),
       Event.type_ Type_.Unit, Event.type_ Type_.Unit,
       Event.exp (Exp.mk Type_.Unit (UnannotatedExp.Use 0)), Event.var_use 0,
       Event.type_ Type_.Unit, Event.type_ Type_.Unit,
       Event.exp (Exp.mk Type_.Unit (UnannotatedExp.Use 1)), Event.var_use 1,
       Event.exit_scope, Event.exit_scope] := by
    simp [Dispatcher.sequence, Dispatcher.sequence_items, Dispatcher.exp,
      Dispatcher.exp_unannotated, Dispatcher.type_, Dispatcher.types,
      Dispatcher.types_opt, Dispatcher.lvalue_list, Dispatcher.lvalue,
      Dispatcher.exp_list_items, Dispatcher.exit_scopes, defaultVisitor,
      seqDBS, callFX, callGXY]
  refine ⟨h, ?_, ?_, fun V s seq => ?_⟩
  · rw [h]
    rfl
  · rw [h]
    rfl
  · simp [Dispatcher.sequence, Dispatcher.exit_scopes_trace V]

/-! ### Always-`Descend`, non-mutating visitors: the trace is a function
of the IR alone -/

/-- With an always-`Descend` `type_` hook, the type trace does not depend
on the visitor state. -/
theorem Dispatcher.type_trace_static (V : Visitor σ)
    (hty : ∀ (s : σ) (t : Type_),
      (V.type_ s t).2 = VisitorContinuation.Descend) :
    (∀ (s : σ) (ty : Type_) (s' : σ),
      (Dispatcher.type_ V s' ty).2.2 = (Dispatcher.type_ V s ty).2.2) ∧
    ∀ (s : σ) (tys : List Type_) (s' : σ),
      (Dispatcher.types V s' tys).2.2 = (Dispatcher.types V s tys).2.2 := by
  apply Dispatcher.type_.mutual_induct (V := V)
  all_goals intros
  all_goals
    simp_all +zetaDelta [Dispatcher.type_, Dispatcher.types, hty,
      (Dispatcher.type_id V).2]

/-- With an always-`Descend` `type_` hook, the optional-type trace does
not depend on the visitor state. -/
theorem Dispatcher.types_opt_trace_static (V : Visitor σ)
    (hty : ∀ (s : σ) (t : Type_),
      (V.type_ s t).2 = VisitorContinuation.Descend) :
    ∀ (s : σ) (tys : List (Option Type_)) (s' : σ),
      (Dispatcher.types_opt V s' tys).2.2 =
        (Dispatcher.types_opt V s tys).2.2 := by
  intro s tys
  induction tys generalizing s with
  | nil => intro s'; simp [Dispatcher.types_opt]
  | cons h t ih =>
    intro s'
    cases h with
    | none =>
      simp only [Dispatcher.types_opt]
      exact ih s s'
    | some ty =>
      simp only [Dispatcher.types_opt]
      rw [(Dispatcher.type_trace_static V hty).1 s ty s']
      rw [ih (Dispatcher.type_ V s ty).1 (Dispatcher.type_ V s' ty).1]

/-- With an always-`Descend` `type_` hook, binding-target traces do not
depend on the visitor state. -/
theorem Dispatcher.lvalue_trace_static (V : Visitor σ)
    (hty : ∀ (s : σ) (t : Type_),
      (V.type_ s t).2 = VisitorContinuation.Descend) :
    (∀ (s : σ) (lv : LValue) (declared : Bool) (s' : σ),
      (Dispatcher.lvalue V s' lv declared).2.2 =
        (Dispatcher.lvalue V s lv declared).2.2) ∧
    ∀ (s : σ) (fields : List (Type_ × LValue)) (declared : Bool) (s' : σ),
      (Dispatcher.unpack_fields V s' fields declared).2.2 =
        (Dispatcher.unpack_fields V s fields declared).2.2 := by
  apply Dispatcher.lvalue.mutual_induct (V := V)
  all_goals intros
  all_goals
    simp_all +zetaDelta [Dispatcher.lvalue, Dispatcher.unpack_fields,
      (Dispatcher.type_id V).1, (Dispatcher.type_id V).2]
  all_goals
    first
    | exact (Dispatcher.type_trace_static V hty).1 _ _ _
    | exact (Dispatcher.type_trace_static V hty).2 _ _ _

/-- With an always-`Descend` `type_` hook, pattern traces do not depend
on the visitor state. -/
theorem Dispatcher.lvalue_list_trace_static (V : Visitor σ)
    (hty : ∀ (s : σ) (t : Type_),
      (V.type_ s t).2 = VisitorContinuation.Descend) :
    ∀ (s : σ) (decls : List LValue) (declared : Bool) (s' : σ),
      (Dispatcher.lvalue_list V s' decls declared).2.2 =
        (Dispatcher.lvalue_list V s decls declared).2.2 := by
  intro s decls declared
  induction decls generalizing s with
  | nil => intro s'; simp [Dispatcher.lvalue_list]
  | cons lv rest ih =>
    intro s'
    simp only [Dispatcher.lvalue_list]
    rw [(Dispatcher.lvalue_trace_static V hty).1 s lv declared s']
    rw [ih (Dispatcher.lvalue V s lv declared).1
      (Dispatcher.lvalue V s' lv declared).1]

/-- With always-`Descend` hooks, every expression-family trace is a
function of the IR alone: it does not depend on the visitor state. -/
theorem Dispatcher.exp_trace_static (V : Visitor σ)
    (hexp : ∀ (s : σ) (e : Exp),
      (V.exp s e).2 = VisitorContinuation.Descend)
    (hty : ∀ (s : σ) (t : Type_),
      (V.type_ s t).2 = VisitorContinuation.Descend) :
    (∀ (s : σ) (ex : Exp) (s' : σ),
      (Dispatcher.exp V s' ex).2.2 = (Dispatcher.exp V s ex).2.2) ∧
    (∀ (s : σ) (ex : UnannotatedExp) (s' : σ),
      (Dispatcher.exp_unannotated V s' ex).2.2 =
        (Dispatcher.exp_unannotated V s ex).2.2) ∧
    (∀ (s : σ) (items : List ExpListItem) (s' : σ),
      (Dispatcher.exp_list_items V s' items).2.2 =
        (Dispatcher.exp_list_items V s items).2.2) ∧
    (∀ (s : σ) (fields : List (Type_ × Exp)) (s' : σ),
      (Dispatcher.pack_fields V s' fields).2.2 =
        (Dispatcher.pack_fields V s fields).2.2) ∧
    (∀ (s : σ) (seq : Sequence) (s' : σ),
      (Dispatcher.sequence V s' seq).2.2 = (Dispatcher.sequence V s seq).2.2) ∧
    ∀ (s : σ) (items : List SequenceItem) (s' : σ),
      (Dispatcher.sequence_items V s' items).2.2 =
        (Dispatcher.sequence_items V s items).2.2 := by
  apply Dispatcher.exp.mutual_induct (V := V)
  all_goals intros
  all_goals
    simp_all +zetaDelta [Dispatcher.exp, Dispatcher.exp_unannotated,
      Dispatcher.exp_list_items, Dispatcher.pack_fields, Dispatcher.sequence,
      Dispatcher.sequence_items, hexp,
      (Dispatcher.type_trace_static V hty).1,
      (Dispatcher.type_trace_static V hty).2,
      Dispatcher.types_opt_trace_static V hty,
      Dispatcher.lvalue_list_trace_static V hty,
      (Dispatcher.type_id V).1, (Dispatcher.type_id V).2,
      Dispatcher.exit_scopes_trace V]
  all_goals
    repeat'
      first
      | rfl
      | exact (Dispatcher.type_trace_static V hty).1 _ _ _
      | exact (Dispatcher.type_trace_static V hty).2 _ _ _
      | exact Dispatcher.types_opt_trace_static V hty _ _ _
      | exact Dispatcher.lvalue_list_trace_static V hty _ _ _ _
      | congr 1

/-- With always-`Descend` hooks, the whole function trace does not depend
on the starting visitor state. -/
theorem Dispatcher.function_trace_static (V : Visitor σ)
    (hexp : ∀ (s : σ) (e : Exp),
      (V.exp s e).2 = VisitorContinuation.Descend)
    (hty : ∀ (s : σ) (t : Type_),
      (V.type_ s t).2 = VisitorContinuation.Descend) :
    ∀ (s : σ) (fdef : Function) (s' : σ),
      (Dispatcher.function V s' fdef).2.2 =
        (Dispatcher.function V s fdef).2.2 := by
  intro s fdef s'
  cases fdef with
  | mk sig body =>
    cases body with
    | Native => simp [Dispatcher.function, Dispatcher.var_decls_trace V]
    | Defined seq =>
      simp [Dispatcher.function, Dispatcher.var_decls_trace V]
      exact (Dispatcher.exp_trace_static V hexp hty).2.2.2.2.1 _ seq _

/-- Claim C9 (determinism / reproducibility): running a visitor whose
hooks perform no IR mutation (all visitors of this model) and always
answer `Descend` twice over the same `Function` — the second run starting
from the first run's final visitor state and output IR — returns the
identical IR after each run, and the second run's hook-invocation trace
(same hooks, same order, same arguments) is identical to the first's. -/
theorem round_trip_idempotent {σ : Type} (V : Visitor σ) (s : σ)
    (fdef : Function)
    (hexp : ∀ (t : σ) (e : Exp),
      (V.exp t e).2 = VisitorContinuation.Descend)
    (hty : ∀ (t : σ) (ty : Type_),
      (V.type_ t ty).2 = VisitorContinuation.Descend) :
    (Dispatcher.function V s fdef).2.1 = fdef ∧
    (Dispatcher.function V (Dispatcher.function V s fdef).1
      (Dispatcher.function V s fdef).2.1).2.1 = fdef ∧
    (Dispatcher.function V (Dispatcher.function V s fdef).1
      (Dispatcher.function V s fdef).2.1).2.2 =
      (Dispatcher.function V s fdef).2.2 := by
  refine ⟨Dispatcher.function_id V s fdef, ?_, ?_⟩
  · rw [Dispatcher.function_id V s fdef]
    exact Dispatcher.function_id V _ fdef
  · rw [Dispatcher.function_id V s fdef]
    exact Dispatcher.function_trace_static V hexp hty s fdef _

/-- A one-parameter function whose body uses the parameter. -/
def useFun : Function :=
  Function.mk (FunctionSignature.mk [(0, Type_.Unit)])
    (FunctionBody.Defined
      [SequenceItem.Seq (Exp.mk Type_.Unit (UnannotatedExp.Use 0))])

/-- Witness for the round-trip claim: the default visitor on `useFun`. -/
theorem round_trip_idempotent_witness :
    (Dispatcher.function defaultVisitor () useFun).2.1 = useFun ∧
    (Dispatcher.function defaultVisitor
      (Dispatcher.function defaultVisitor () useFun).1
      (Dispatcher.function defaultVisitor () useFun).2.1).2.1 = useFun ∧
    (Dispatcher.function defaultVisitor
      (Dispatcher.function defaultVisitor () useFun).1
      (Dispatcher.function defaultVisitor () useFun).2.1).2.2 =
      (Dispatcher.function defaultVisitor () useFun).2.2 :=
  round_trip_idempotent defaultVisitor () useFun (fun _ _ => rfl) (fun _ _ => rfl)
